import Mathlib

/-!
Verification of the DAGMC geometry-import core (`src/dagmc.cpp`) of this
repository.  The C++ code is shallowly embedded: global mutable state
(`model::cells`, `model::surfaces`, the id-to-index maps, `model::materials`)
becomes an explicit `SimState` record that is threaded through the functions,
fatal errors (`fatal_error`, uncaught exceptions) become `Except Err`, and the
external collaborators (MOAB mesh queries, `dagmcMetaData` property lookup,
`std::sqrt`, `std::stod`) become explicit inputs: each volume/surface is
described by the values those collaborators would return for it.
-/

namespace OpenMCDag

/-- Boundary-condition variants produced by the surface loop.  In the C++ code
`none` is the default-constructed `bc_` (transmissive), `vacuum` is `VacuumBC`,
`reflective` is `ReflectiveBC`. -/
inductive BCKind where
  | vacuum
  | reflective
deriving DecidableEq, Repr

/-- Fatal outcomes of the import.  Each constructor corresponds to one
`fatal_error` call (or uncaught exception) in `src/dagmc.cpp`, and carries the
data interpolated into the corresponding message. -/
inductive Err where
  | missingId
  | missingFilename
  | cellCollision (id : Int) (univId : Int)
  | noMaterialAssignment (id : Int)
  | ambiguousMaterial (name : String)
  | materialNotFound (tag : String) (cellId : Int)
  | uwuwNotFound (tag : String)
  | materialLookup (id : Int)
  | stodInvalid (s : String)
  | periodicBC
  | unknownBC (tag : String) (surfId : Int)
  | surfCollision (id : Int) (univId : Int)
deriving DecidableEq, Repr

/-- A cell record as built by the volume loop of `DAGUniverse::initialize`
(dagmc.cpp:291-296): mesh back-reference index, global ID, owning universe,
material list and stored `sqrtkT_` list.  Temperatures are modelled as
rationals (the C++ `double` arithmetic is abstracted by the `sqrtf`/`stod`
parameters of `DagEnv`). -/
structure DAGCell where
  dag_index : Nat
  id : Int
  univ : Int
  material : List Int
  sqrtkT : List Rat
deriving DecidableEq, Repr

/-- A surface record as built by the surface loop of `DAGUniverse::initialize`
(dagmc.cpp:385-388): mesh back-reference index, global ID, optional boundary
condition (`none` = transmissive default). -/
structure DAGSurface where
  dag_index : Nat
  id : Int
  bc : Option BCKind
deriving DecidableEq, Repr

/-- A previously loaded material (`model::materials` entry): its `id_`, `name_`
and default temperature (`Material::temperature()`). -/
structure Material where
  id : Int
  name : String
  temperature : Rat
deriving DecidableEq, Repr

/-- The global registries mutated by the import (`model::cells`,
`model::cell_map`, `model::surfaces`, `model::surface_map`,
`model::materials`, `model::material_map`).  Pre-existing CSG cells and
surfaces are represented by records carrying their ids.  The id-to-index maps
are association lists (`std::unordered_map` lookup/insert). -/
structure SimState where
  cells : List DAGCell
  cell_map : List (Int × Nat)
  surfaces : List DAGSurface
  surface_map : List (Int × Nat)
  materials : List Material
  material_map : List (Int × Nat)
deriving DecidableEq, Repr

/-- Per-import environment: the universe id, the `adjust_geometry_ids_` flag,
whether a non-empty UWUW library was found (`uses_uwuw()`), the UWUW library
as a name-to-mat_number map, `settings::temperature_default`, and the external
numeric collaborators: `kB` is the constant `K_BOLTZMANN` (constants.h, not
part of the excerpt), `sqrtf` models `std::sqrt` and `stod` models
`std::stod` (`none` = `std::invalid_argument`). -/
structure DagEnv where
  universe_id : Int
  adjust_geometry_ids : Bool
  using_uwuw : Bool
  uwuw_lib : List (String × Int)
  temperature_default : Rat
  kB : Rat
  sqrtf : Rat → Rat
  stod : String → Option Rat

/-- Modelled from the spec: the VOID material sentinel (`MATERIAL_VOID` from
constants.h, which is not part of the excerpt; OpenMC defines it as `-1`).
The spec calls it "a sentinel `VOID` value \x28denotes vacuum\x29". -/
def MATERIAL_VOID : Int := -1

/-- What the mesh/metadata collaborators report for one topological-dimension-3
entity (volume), in mesh-enumeration order: the MOAB entity handle (nonzero),
`id_by_index(3, i+1)`, the `material` property string from `dagmcMetaData`,
the raw UWUW material key `volume_material_property_data_eh[handle]`, and the
`temp` property (`none` when `has_prop` is false). -/
structure VolInfo where
  handle : Nat
  native_id : Int
  mat_prop : String
  uwuw_mat : String
  temp_prop : Option String
deriving DecidableEq, Repr

/-- What the collaborators report for one topological-dimension-2 entity
(surface): `id_by_index(2, i+1)`, the `boundary` property string, and the
parent volume handles (`get_parent_meshsets`). -/
structure SurfInfo where
  native_id : Int
  boundary_prop : String
  parent_vols : List Nat
deriving DecidableEq, Repr

/-- ASCII lower-casing of one character, as done per character by
`openmc::to_lower` via `std::tolower`. -/
def lowerChar (ch : Char) : Char :=
  if 'A' ≤ ch ∧ ch ≤ 'Z' then Char.ofNat (ch.toNat + 32) else ch

/-- `openmc::to_lower` applied to a whole string. -/
def asciiToLower (s : String) : String :=
  String.mk (s.toList.map lowerChar)

/-- Character class accepted as leading whitespace by `std::stoi`
(`std::isspace` in the default locale). -/
def isCppSpace (ch : Char) : Bool :=
  ch = ' ' || ch = '\t' || ch = '\n' || ch = (Char.ofNat 11) || ch = (Char.ofNat 12) || ch = '\r'

/-- Decimal value of a digit list (most significant first). -/
def digitsVal (ds : List Char) : Nat :=
  ds.foldl (fun a c => 10 * a + (c.toNat - 48)) 0

/-- Parse the longest leading run of decimal digits; `none` if there is none.
Helper for the `std::stoi` model. -/
def parseLeadingDigits (cs : List Char) : Option Nat :=
  let ds := cs.takeWhile Char.isDigit
  if ds.isEmpty then none else some (digitsVal ds)

/-- Model of `std::stoi` (base 10): skip leading whitespace, accept an optional
sign, then convert the longest leading digit run; `none` models the
`std::invalid_argument` exception thrown when no digits are found.  The
`std::out_of_range` overflow case is not modelled (integers are unbounded
here). -/
def cppStoi (s : String) : Option Int :=
  match s.toList.dropWhile isCppSpace with
  | '-' :: rest => (parseLeadingDigits rest).map (fun n => -(n : Int))
  | '+' :: rest => (parseLeadingDigits rest).map (fun n => (n : Int))
  | rest => (parseLeadingDigits rest).map (fun n => (n : Int))

/-- Insert into a sorted list, ascending. -/
def insertSorted (x : Int) : List Int → List Int
  | [] => [x]
  | y :: ys => if x ≤ y then x :: y :: ys else y :: insertSorted x ys

/-- `std::sort` of the id vector collected in `dagmc_ids_for_dim`
(dagmc.cpp:61), realised as insertion sort. -/
def sortIds (l : List Int) : List Int :=
  l.foldr insertSorted []

/-- Total model of `id_vec[i]`: in-bounds reads return the element, an
out-of-bounds read returns `junk i` (the C++ behaviour is undefined; the
oracle `junk` stands for whatever the read yields). -/
def readIdx (l : List Int) (junk : Nat → Int) (i : Nat) : Int :=
  match l.get? i with
  | some x => x
  | none => junk i

/-- The `while` loop of `DAGUniverse::dagmc_ids_for_dim` (dagmc.cpp:69-86),
with out-of-bounds vector reads supplied by the `junk` oracle.  Note the loop
both assigns `start_id = id_vec[++i]` and then increments `i` again, so after
a printed block the index advances by two.  The first argument is structural
fuel: every recursive call consumes one unit and strictly increases `i`, and
the loop exits as soon as `i ≥ idv.length`, so `idv.length + 1` units (as
passed by the wrapper below) always suffice; exhaustion returns `acc` like a
normal exit and is never reached from the wrapper. -/
def rangeLoop (idv : List Int) (junk : Nat → Int) : Nat → Nat → Int → String → String
  | 0, _, _, acc => acc
  | fuel + 1, i, start_id, acc =>
    if i < idv.length then
      let stop_id := readIdx idv junk i
      if readIdx idv junk (i + 1) > stop_id + 1 then
        let acc1 := acc ++ (if start_id ≠ stop_id
          then toString start_id ++ "-" ++ toString stop_id
          else toString start_id)
        let acc2 := if i < idv.length - 1 then acc1 ++ ", " else acc1
        rangeLoop idv junk fuel (i + 2) (readIdx idv junk (i + 1)) acc2
      else
        rangeLoop idv junk fuel (i + 1) start_id acc
    else acc

/-- The same loop in a total embedding where an out-of-bounds `id_vec` read
aborts with `none` instead of producing arbitrary memory.  Fuel exhaustion
returns `some acc` exactly like a normal loop exit (and is unreachable from
the wrapper, which passes `idv.length + 1`), so a `none` result always
indicates a genuine out-of-bounds read. -/
def rangeLoopOpt (idv : List Int) : Nat → Nat → Int → String → Option String
  | 0, _, _, acc => some acc
  | fuel + 1, i, start_id, acc =>
    if i < idv.length then
      match idv.get? i with
      | none => none
      | some stop_id =>
        match idv.get? (i + 1) with
        | none => none
        | some nxt =>
          if nxt > stop_id + 1 then
            let acc1 := acc ++ (if start_id ≠ stop_id
              then toString start_id ++ "-" ++ toString stop_id
              else toString start_id)
            let acc2 := if i < idv.length - 1 then acc1 ++ ", " else acc1
            rangeLoopOpt idv fuel (i + 2) nxt acc2
          else
            rangeLoopOpt idv fuel (i + 1) start_id acc
    else some acc

/-- `DAGUniverse::dagmc_ids_for_dim` (dagmc.cpp:50-89) given the list of
native ids returned by `id_by_index` for the dimension, with out-of-bounds
reads supplied by the `junk` oracle.  Note `int start_id = id_vec[0]` is
executed even for an empty vector. -/
def dagmc_ids_for_dim_junk (ids : List Int) (junk : Nat → Int) : String :=
  let idv := sortIds ids
  rangeLoop idv junk (idv.length + 1) 0 (readIdx idv junk 0) ""

/-- `DAGUniverse::dagmc_ids_for_dim` in the total `Option` embedding:
the result is `none` as soon as any `id_vec` access is out of bounds. -/
def dagmc_ids_for_dim_opt (ids : List Int) : Option String :=
  let idv := sortIds ids
  match idv.get? 0 with
  | none => none
  | some s => rangeLoopOpt idv (idv.length + 1) 0 s ""

/-- True when the sorted id vector ends with a gap: its last element exceeds
its second-to-last by more than one. -/
def lastGapB (l : List Int) : Bool :=
  match l.get? (l.length - 2), l.get? (l.length - 1) with
  | some a, some b => decide (b > a + 1)
  | _, _ => false

/-- Split a character list at every occurrence of `sep` (occurrences are
dropped; the result always has one more part than there are separators). -/
def splitOnChar (sep : Char) : List Char → List (List Char)
  | [] => [[]]
  | ch :: rest =>
    let r := splitOnChar sep rest
    if ch = sep then [] :: r
    else
      match r with
      | [] => [[ch]]
      | t :: ts => (ch :: t) :: ts

/-- Strip leading and trailing spaces from a character list. -/
def trimSpaces (cs : List Char) : List Char :=
  ((cs.dropWhile (fun ch => ch = ' ')).reverse.dropWhile (fun ch => ch = ' ')).reverse

/-- Re-parser for the formatter output, written from the claim's words (not
from any source function): split on commas, trim, and expand each
`start-end` token into the integers `start..end`; a bare integer token
denotes itself. -/
def reparseRanges (s : String) : List Int :=
  (splitOnChar ',' s.toList).flatMap (fun tok =>
    let t := trimSpaces tok
    match splitOnChar '-' t with
    | [a] =>
      match cppStoi (String.mk a) with
      | some n => [n]
      | none => []
    | [a, b] =>
      match cppStoi (String.mk a), cppStoi (String.mk b) with
      | some x, some y => (List.range (y - x + 1).toNat).map (fun k => x + (k : Int))
      | _, _ => []
    | _ => [])

/-- The XML `<dagmc>` node as seen through `check_for_node` /
`get_node_value` / `get_node_value_bool`: each field is `none` when the
attribute/child is absent. -/
structure XmlDagNode where
  id_node : Option Int
  filename_node : Option String
  auto_geom_ids : Option Bool
  auto_mat_ids : Option Bool
deriving DecidableEq, Repr

/-- The four fields of a `DAGUniverse` set by the XML constructor. -/
structure UnivFlags where
  id : Int
  filename : String
  adjust_geometry_ids : Bool
  adjust_material_ids : Bool
deriving DecidableEq, Repr

/-- `DAGUniverse::DAGUniverse(pugi::xml_node)` (dagmc.cpp:188-212), flag
handling only (the trailing `initialize()` call is modelled separately).
Faithful to the source: the branch guarded by `check_for_node(node,
"auto_mat_ids")` assigns `adjust_geometry_ids_` (dagmc.cpp:208), not
`adjust_material_ids_`. -/
def dagUniverseFromXml (node : XmlDagNode) : Except Err UnivFlags :=
  match node.id_node with
  | none => .error .missingId
  | some i =>
    match node.filename_node with
    | none => .error .missingFilename
    | some f =>
      let ag0 : Bool := false
      let ag1 : Bool :=
        match node.auto_geom_ids with
        | some b => b
        | none => ag0
      let am : Bool := false
      let ag2 : Bool :=
        match node.auto_mat_ids with
        | some b => b
        | none => ag1
      .ok { id := i, filename := f, adjust_geometry_ids := ag2, adjust_material_ids := am }

/-- The fold computing `next_cell_id` / `next_surf_id`
(dagmc.cpp:233-236, 241-244): `x = 0; for v in l: if v > x then x = v`. -/
def cpp_max_fold (l : List Int) : Int :=
  l.foldl (fun m x => if x > m then x else m) 0

/-- `next_cell_id` after the increment (dagmc.cpp:233-238): one above the
largest existing cell id (or 1 when the fold stays at its initial 0). -/
def next_cell_id (st : SimState) : Int :=
  cpp_max_fold (st.cells.map DAGCell.id) + 1

/-- `next_surf_id` after the increment (dagmc.cpp:241-246). -/
def next_surf_id (st : SimState) : Int :=
  cpp_max_fold (st.surfaces.map DAGSurface.id) + 1

/-- The name-matching loop of `DAGUniverse::legacy_assign_material`
(dagmc.cpp:139-155): walk `model::materials`; on the first case-insensitive
name match push that material's id and set the flag; on a second match raise
the ambiguity fatal error. -/
def legacy_find_loop (ms : String) (found : Bool) (c : DAGCell) : List Material → Except Err (Bool × DAGCell)
  | [] => .ok (found, c)
  | m :: rest =>
    if ms == asciiToLower m.name then
      if !found then
        legacy_find_loop ms true { c with material := c.material ++ [m.id] } rest
      else
        .error (.ambiguousMaterial ms)
    else
      legacy_find_loop ms found c rest

/-- `DAGUniverse::legacy_assign_material` (dagmc.cpp:132-179): lower the tag,
try name matching, and if no name matched parse the tag with `std::stoi` and
push the parsed integer as the material id (no existence check); a failed
parse is the "No material ... found for volume \x28cell\x29 ..." fatal error.  The
`verbosity >= 10` diagnostic block (dagmc.cpp:168-178) is not modelled. -/
def legacy_assign_material (mat_string : String) (c : DAGCell) (materials : List Material) : Except Err DAGCell :=
  let ms := asciiToLower mat_string
  match legacy_find_loop ms false c materials with
  | .error e => .error e
  | .ok (found, c1) =>
    if !found then
      match cppStoi ms with
      | some i => .ok { c1 with material := c1.material ++ [i] }
      | none => .error (.materialNotFound ms c1.id)
    else
      .ok c1

/-- The reserved tags that bypass material resolution (dagmc.cpp:323). -/
def isVoidTag (s : String) : Bool :=
  s == "void" || s == "vacuum" || s == "graveyard"

/-- Material assignment for one volume (dagmc.cpp:322-340): reserved tags get
the VOID sentinel; with a UWUW library the raw UWUW key is looked up and the
entry's `mat_number` metadata used; otherwise legacy assignment runs. -/
def resolve_material (env : DagEnv) (st : SimState) (c : DAGCell) (mat_str : String) (v : VolInfo) : Except Err DAGCell :=
  if isVoidTag mat_str then
    .ok { c with material := c.material ++ [MATERIAL_VOID] }
  else if env.using_uwuw then
    match env.uwuw_lib.lookup v.uwuw_mat with
    | some mat_number => .ok { c with material := c.material ++ [mat_number] }
    | none => .error (.uwuwNotFound mat_str)
  else
    legacy_assign_material mat_str c st.materials

/-- `model::materials[model::material_map.at(id)]` (dagmc.cpp:352). -/
def lookup_material (st : SimState) (mid : Int) : Option Material :=
  (st.material_map.lookup mid).bind st.materials.get?

/-- Temperature assignment for one non-void cell (dagmc.cpp:352-362): fetch
the resolved material (a missing map entry is the uncaught
`std::out_of_range` from `map::at`), then prefer the explicit `temp`
property, else the material's positive default temperature, else
`settings::temperature_default`; the stored value is
`sqrt(K_BOLTZMANN * T)`. -/
def assign_sqrtkT (env : DagEnv) (st : SimState) (c : DAGCell) (v : VolInfo) : Except Err DAGCell :=
  match lookup_material st (c.material.headD 0) with
  | none => .error (.materialLookup (c.material.headD 0))
  | some mat =>
    match v.temp_prop with
    | some tstr =>
      match env.stod tstr with
      | some t => .ok { c with sqrtkT := c.sqrtkT ++ [env.sqrtf (env.kB * t)] }
      | none => .error (.stodInvalid tstr)
    | none =>
      if mat.temperature > 0 then
        .ok { c with sqrtkT := c.sqrtkT ++ [env.sqrtf (env.kB * mat.temperature)] }
      else
        .ok { c with sqrtkT := c.sqrtkT ++ [env.sqrtf (env.kB * env.temperature_default)] }

/-- Material and temperature handling for one volume (dagmc.cpp:322-362),
given the already-lowered material tag: resolve the material, and unless the
first material entry is the VOID sentinel (dagmc.cpp:346, the `continue`
path) assign the temperature. -/
def volume_cell (env : DagEnv) (st : SimState) (c : DAGCell) (mat_str : String) (v : VolInfo) : Except Err DAGCell :=
  match resolve_material env st c mat_str v with
  | .error e => .error e
  | .ok c1 =>
    if c1.material.headD 0 = MATERIAL_VOID then
      .ok c1
    else
      assign_sqrtkT env st c1 v

/-- One iteration of the volume loop of `DAGUniverse::initialize`
(dagmc.cpp:287-365): build the cell record, allocate its id (renumbered from
`nci` or taken from the native metadata id), probe `model::cell_map` (a hit
is the fatal cell-id collision, dagmc.cpp:298-305, and — because
`fatal_error` terminates the process — yields no successor state), check the
material tag is nonempty, lower it, track the graveyard handle, resolve
material and temperature, and append the cell to the global collections. -/
def process_volume (env : DagEnv) (st : SimState) (nci : Int) (i : Nat) (v : VolInfo) (g : Nat) : Except Err (SimState × Int × Nat) :=
  let cid : Int := if env.adjust_geometry_ids then nci else v.native_id
  let nci' : Int := if env.adjust_geometry_ids then nci + 1 else nci
  match st.cell_map.lookup cid with
  | some _ => .error (.cellCollision cid env.universe_id)
  | none =>
    let cmap := (cid, st.cells.length) :: st.cell_map
    if v.mat_prop == "" then
      .error (.noMaterialAssignment cid)
    else
      let mat_str := asciiToLower v.mat_prop
      let g' : Nat := if mat_str == "graveyard" then v.handle else g
      match volume_cell env st { dag_index := i + 1, id := cid, univ := env.universe_id, material := [], sqrtkT := [] } mat_str v with
      | .error e => .error e
      | .ok c => .ok ({ st with cells := st.cells ++ [c], cell_map := cmap }, nci', g')

/-- The volume loop (dagmc.cpp:287-365) over the enumerated volumes. -/
def volumes_loop (env : DagEnv) : SimState → Int → Nat → Nat → List VolInfo → Except Err (SimState × Int × Nat)
  | st, nci, _, g, [] => .ok (st, nci, g)
  | st, nci, i, g, v :: rest =>
    match process_volume env st nci i v g with
    | .error e => .error e
    | .ok (st', nci', g') => volumes_loop env st' nci' (i + 1) g' rest

/-- The boundary-tag classification of the surface loop (dagmc.cpp:393-404),
acting on the already-lowered tag: empty/transmit/transmission keep the
transmissive default, vacuum and the reflective spellings select their
variants, periodic and anything else are fatal. -/
def classify_bc (bc_value : String) (surf_id : Int) : Except Err (Option BCKind) :=
  if bc_value == "" || bc_value == "transmit" || bc_value == "transmission" then
    .ok none
  else if bc_value == "vacuum" then
    .ok (some .vacuum)
  else if bc_value == "reflective" || bc_value == "reflect" || bc_value == "reflecting" then
    .ok (some .reflective)
  else if bc_value == "periodic" then
    .error .periodicBC
  else
    .error (.unknownBC bc_value surf_id)

/-- Boundary-condition resolution for one surface (dagmc.cpp:391-415): lower
the `boundary` property, classify it, then — after classification — force
Vacuum whenever a graveyard volume was tracked (`graveyard` handle nonzero)
and appears among the surface's parent volumes. -/
def resolve_bc (boundary_prop : String) (surf_id : Int) (graveyard : Nat) (parent_vols : List Nat) : Except Err (Option BCKind) :=
  match classify_bc (asciiToLower boundary_prop) surf_id with
  | .error e => .error e
  | .ok bc => .ok (if graveyard ≠ 0 ∧ graveyard ∈ parent_vols then some .vacuum else bc)

/-- One iteration of the surface loop of `DAGUniverse::initialize`
(dagmc.cpp:381-430): build the surface record, allocate its id, resolve the
boundary condition (including the graveyard override), probe
`model::surface_map` (a hit is the fatal surface-id collision,
dagmc.cpp:419-426), and append the surface. -/
def process_surface (env : DagEnv) (st : SimState) (nsi : Int) (i : Nat) (g : Nat) (sf : SurfInfo) : Except Err (SimState × Int) :=
  let sid : Int := if env.adjust_geometry_ids then nsi else sf.native_id
  let nsi' : Int := if env.adjust_geometry_ids then nsi + 1 else nsi
  match resolve_bc sf.boundary_prop sid g sf.parent_vols with
  | .error e => .error e
  | .ok bc =>
    match st.surface_map.lookup sid with
    | some _ => .error (.surfCollision sid env.universe_id)
    | none =>
      .ok ({ st with
              surfaces := st.surfaces ++ [{ dag_index := i + 1, id := sid, bc := bc }],
              surface_map := (sid, st.surfaces.length) :: st.surface_map }, nsi')

/-- The surface loop (dagmc.cpp:381-430) over the enumerated surfaces. -/
def surfaces_loop (env : DagEnv) : SimState → Int → Nat → Nat → List SurfInfo → Except Err (SimState × Int)
  | st, nsi, _, _, [] => .ok (st, nsi)
  | st, nsi, i, g, s :: rest =>
    match process_surface env st nsi i g s with
    | .error e => .error e
    | .ok (st', nsi') => surfaces_loop env st' nsi' (i + 1) g rest

/-! Concrete inputs used to instantiate the theorems below. -/

/-- A simulation model with no pre-existing cells, surfaces or materials. -/
def emptyState : SimState := ⟨[], [], [], [], [], []⟩

/-- A legacy-mode import unit: no UWUW library, ids preserved.  The numeric
collaborators are instantiated trivially (`sqrtf` the identity on rationals). -/
def envLegacy : DagEnv :=
  { universe_id := 1, adjust_geometry_ids := false, using_uwuw := false, uwuw_lib := [],
    temperature_default := 293, kB := 1, sqrtf := fun q => q, stod := fun _ => none }

/-- A renumbering import unit (`adjust_geometry_ids_ = true`). -/
def envRenumber : DagEnv :=
  { envLegacy with universe_id := 4, adjust_geometry_ids := true }

/-- An environment whose `stod` parses every temperature string to 300 and
whose `sqrtf` is the constant 600, for exercising the temperature paths. -/
def envTemp : DagEnv :=
  { envLegacy with
    kB := 2
    sqrtf := fun _ => 600
    stod := fun _ => some 300
    temperature_default := 250 }

/-- A freshly constructed cell record with id 5, before material handling. -/
def cellFresh5 : DAGCell := ⟨1, 5, 1, [], []⟩

/-- A volume whose material tag is the string `-1`. -/
def volMinus1 : VolInfo := ⟨1, 5, "-1", "", none⟩

/-- The cell produced from `cellFresh5` by a tag resolving to the sentinel. -/
def cellVoidOut : DAGCell := ⟨1, 5, 1, [-1], []⟩

/-- A model holding one material named steel with id 7 and default
temperature 400, registered in the material map. -/
def stSteel : SimState := ⟨[], [], [], [], [⟨7, "steel", 400⟩], [(7, 0)]⟩

/-- A volume tagged steel carrying an explicit `temp` property. -/
def volSteelTemp : VolInfo := ⟨1, 5, "steel", "", some "300"⟩

/-- The cell produced for `volSteelTemp` under `envTemp`: material 7, stored
temperature `sqrtf (kB * 300) = 600`. -/
def cellSteelOut : DAGCell := ⟨1, 5, 1, [7], [600]⟩

/-- Two void-tagged volumes, for the renumbering run. -/
def volsVoid : List VolInfo := [⟨11, 7, "void", "", none⟩, ⟨12, 9, "void", "", none⟩]

/-- One surface with no boundary tag and no parent volumes. -/
def surfsPlain : List SurfInfo := [⟨21, "", []⟩]

/-- State after running the volume loop of the renumbering run on
`emptyState` with `volsVoid`. -/
def stAfterVols : SimState :=
  ⟨[⟨1, 1, 4, [-1], []⟩, ⟨2, 2, 4, [-1], []⟩], [(2, 1), (1, 0)], [], [], [], []⟩

/-- State after additionally running the surface loop on `surfsPlain`. -/
def stAfterSurfs : SimState :=
  ⟨[⟨1, 1, 4, [-1], []⟩, ⟨2, 2, 4, [-1], []⟩], [(2, 1), (1, 0)], [⟨1, 1, none⟩], [(1, 0)], [], []⟩

/-- A model already holding a cell with id 5 registered in the cell map. -/
def stCell5 : SimState := ⟨[⟨1, 5, 1, [-1], []⟩], [(5, 0)], [], [], [], []⟩

/-- A volume whose native metadata id is the colliding 5. -/
def vol5 : VolInfo := ⟨3, 5, "void", "", none⟩

/-- A model already holding a surface with id 7 registered in the surface map. -/
def stSurf7 : SimState := ⟨[], [], [⟨1, 7, none⟩], [(7, 0)], [], []⟩

/-- A surface whose native metadata id is the colliding 7. -/
def surf7 : SurfInfo := ⟨7, "", []⟩

/-! Helper lemmas about the name-matching loop of `legacy_assign_material`. -/

/-- If no material name matches, the loop returns its flag and cell unchanged. -/
theorem flt_nomatch (ms : String) :
    ∀ (mats : List Material) (c : DAGCell) (f : Bool),
      mats.filter (fun m => ms == asciiToLower m.name) = [] →
      legacy_find_loop ms f c mats = .ok (f, c) := by
  intro mats
  induction mats with
  | nil => intro c f _; rfl
  | cons m rest ih =>
    intro c f hfil
    cases hp : (ms == asciiToLower m.name) with
    | true =>
      simp [List.filter_cons, hp] at hfil
    | false =>
      simp only [List.filter_cons, hp] at hfil
      simp only [legacy_find_loop, hp]
      simp only [Bool.false_eq_true, if_false] at hfil ⊢
      exact ih c f hfil

/-- With the found flag already set, any further name match is the fatal
ambiguity error. -/
theorem flt_found_hit (ms : String) :
    ∀ (mats : List Material) (c : DAGCell),
      1 ≤ (mats.filter (fun m => ms == asciiToLower m.name)).length →
      legacy_find_loop ms true c mats = .error (.ambiguousMaterial ms) := by
  intro mats
  induction mats with
  | nil => intro c h; simp at h
  | cons m rest ih =>
    intro c h
    cases hp : (ms == asciiToLower m.name) with
    | true =>
      simp [legacy_find_loop, hp]
    | false =>
      simp only [List.filter_cons, hp, Bool.false_eq_true, if_false] at h
      simp only [legacy_find_loop, hp, Bool.false_eq_true, if_false]
      exact ih c h

/-- Exactly one name match: the loop pushes that material's id and reports
the flag set. -/
theorem flt_single (ms : String) :
    ∀ (mats : List Material) (c : DAGCell) (m : Material),
      mats.filter (fun m2 => ms == asciiToLower m2.name) = [m] →
      legacy_find_loop ms false c mats = .ok (true, { c with material := c.material ++ [m.id] }) := by
  intro mats
  induction mats with
  | nil => intro c m h; simp at h
  | cons m0 rest ih =>
    intro c m hfil
    cases hp : (ms == asciiToLower m0.name) with
    | true =>
      simp only [List.filter_cons, hp, if_true] at hfil
      rw [List.cons_eq_cons] at hfil
      obtain ⟨rfl, hrest⟩ := hfil
      simp only [legacy_find_loop, hp, if_true, Bool.not_false]
      exact flt_nomatch ms rest _ true hrest
    | false =>
      simp only [List.filter_cons, hp, Bool.false_eq_true, if_false] at hfil
      simp only [legacy_find_loop, hp, Bool.false_eq_true, if_false]
      exact ih c m hfil

/-- Two or more name matches: the loop is the fatal ambiguity error. -/
theorem flt_multi (ms : String) :
    ∀ (mats : List Material) (c : DAGCell),
      2 ≤ (mats.filter (fun m2 => ms == asciiToLower m2.name)).length →
      legacy_find_loop ms false c mats = .error (.ambiguousMaterial ms) := by
  intro mats
  induction mats with
  | nil => intro c h; simp at h
  | cons m0 rest ih =>
    intro c h
    cases hp : (ms == asciiToLower m0.name) with
    | true =>
      simp only [List.filter_cons, hp, if_true, List.length_cons] at h
      simp only [legacy_find_loop, hp, if_true, Bool.not_false]
      exact flt_found_hit ms rest _ (by omega)
    | false =>
      simp only [List.filter_cons, hp, Bool.false_eq_true, if_false] at h
      simp only [legacy_find_loop, hp, Bool.false_eq_true, if_false]
      exact ih c h

/-- Structure of a successful loop run: starting with the flag cleared, the
cell either comes back unchanged (flag still cleared) or with exactly one id
pushed (flag set); starting with the flag set, the cell comes back unchanged. -/
theorem fl_shape (ms : String) :
    ∀ (mats : List Material) (f : Bool) (c : DAGCell) (b : Bool) (c' : DAGCell),
      legacy_find_loop ms f c mats = .ok (b, c') →
      (f = false → (b = false ∧ c' = c) ∨ (b = true ∧ ∃ x, c' = { c with material := c.material ++ [x] }))
      ∧ (f = true → b = true ∧ c' = c) := by
  intro mats
  induction mats with
  | nil =>
    intro f c b c' h
    simp only [legacy_find_loop, Except.ok.injEq, Prod.mk.injEq] at h
    obtain ⟨rfl, rfl⟩ := h
    constructor
    · intro hf; exact Or.inl ⟨hf, rfl⟩
    · intro hf; exact ⟨hf, rfl⟩
  | cons m rest ih =>
    intro f c b c' h
    cases hp : (ms == asciiToLower m.name) with
    | true =>
      cases f with
      | false =>
        simp only [legacy_find_loop, hp, if_true, Bool.not_false] at h
        have h2 := (ih true _ b c' h).2 rfl
        constructor
        · intro _
          refine Or.inr ⟨h2.1, m.id, ?_⟩
          rw [h2.2]
        · intro hf; cases hf
      | true =>
        simp only [legacy_find_loop, hp, if_true, Bool.not_true] at h
        simp at h
    | false =>
      simp only [legacy_find_loop, hp, Bool.false_eq_true, if_false] at h
      have := ih f c b c' h
      cases f with
      | false =>
        constructor
        · intro _
          rcases this.1 rfl with h1 | h1
          · exact Or.inl h1
          · exact Or.inr h1
        · intro hf; cases hf
      | true =>
        constructor
        · intro hf; cases hf
        · intro _; exact this.2 rfl

/-- A successful `legacy_assign_material` pushes exactly one material id. -/
theorem legacy_ok_push (ms : String) (c : DAGCell) (mats : List Material) (c' : DAGCell)
    (h : legacy_assign_material ms c mats = .ok c') :
    ∃ x, c' = { c with material := c.material ++ [x] } := by
  simp only [legacy_assign_material] at h
  split at h
  · cases h
  · rename_i b c1 hloop
    rcases (fl_shape (asciiToLower ms) mats false c b c1 hloop).1 rfl with ⟨hb, rfl⟩ | ⟨hb, hx⟩
    · subst hb
      simp only [Bool.not_false, if_true] at h
      split at h
      · rename_i k hk
        simp only [Except.ok.injEq] at h
        exact ⟨k, h.symm⟩
      · cases h
    · subst hb
      simp only [Bool.not_true, Bool.false_eq_true, if_false, Except.ok.injEq] at h
      obtain ⟨x, hx⟩ := hx
      exact ⟨x, by rw [← h, hx]⟩

/-- A successful material resolution pushes exactly one material id; for a
reserved tag it is the VOID sentinel. -/
theorem resolve_material_ok_shape (env : DagEnv) (st : SimState) (c : DAGCell) (mat_str : String)
    (v : VolInfo) (c' : DAGCell) (h : resolve_material env st c mat_str v = .ok c') :
    ∃ x, c' = { c with material := c.material ++ [x] } ∧ (isVoidTag mat_str = true → x = MATERIAL_VOID) := by
  unfold resolve_material at h
  split at h
  · rename_i hv
    simp only [Except.ok.injEq] at h
    exact ⟨MATERIAL_VOID, h.symm, fun _ => rfl⟩
  · rename_i hv
    split at h
    · split at h
      · rename_i n hn
        simp only [Except.ok.injEq] at h
        refine ⟨n, h.symm, fun hvt => absurd hvt (by simp_all)⟩
      · cases h
    · obtain ⟨x, hx⟩ := legacy_ok_push mat_str c st.materials c' h
      exact ⟨x, hx, fun hvt => absurd hvt (by simp_all)⟩

/-- A successful temperature assignment pushes exactly one stored value and
touches nothing else. -/
theorem assign_sqrtkT_ok_shape (env : DagEnv) (st : SimState) (c : DAGCell) (v : VolInfo)
    (c' : DAGCell) (h : assign_sqrtkT env st c v = .ok c') :
    ∃ q, c' = { c with sqrtkT := c.sqrtkT ++ [q] } := by
  unfold assign_sqrtkT at h
  split at h
  · cases h
  · split at h
    · split at h
      · rename_i t ht
        simp only [Except.ok.injEq] at h
        exact ⟨_, h.symm⟩
      · cases h
    · split at h
      · simp only [Except.ok.injEq] at h
        exact ⟨_, h.symm⟩
      · simp only [Except.ok.injEq] at h
        exact ⟨_, h.symm⟩

/-- A successfully built cell keeps the id, mesh index and universe of the
freshly constructed record. -/
theorem volume_cell_ok_fields (env : DagEnv) (st : SimState) (c0 : DAGCell) (mat_str : String)
    (v : VolInfo) (c : DAGCell) (h : volume_cell env st c0 mat_str v = .ok c) :
    c.id = c0.id ∧ c.dag_index = c0.dag_index ∧ c.univ = c0.univ := by
  unfold volume_cell at h
  split at h
  · cases h
  · rename_i c1 hres
    obtain ⟨x, hx, -⟩ := resolve_material_ok_shape env st c0 mat_str v c1 hres
    split at h
    · simp only [Except.ok.injEq] at h
      subst h; rw [hx]; exact ⟨rfl, rfl, rfl⟩
    · obtain ⟨q, hq⟩ := assign_sqrtkT_ok_shape env st c1 v c h
      rw [hq, hx]; exact ⟨rfl, rfl, rfl⟩

/-- One successful volume iteration appends exactly one cell, whose id is the
renumbered or native candidate id, advances the renumber counter accordingly,
and leaves the surface collections alone. -/
theorem process_volume_ok (env : DagEnv) (st : SimState) (nci : Int) (i : Nat) (v : VolInfo)
    (g : Nat) (st' : SimState) (nci' : Int) (g' : Nat)
    (h : process_volume env st nci i v g = .ok (st', nci', g')) :
    (∃ c, st'.cells = st.cells ++ [c] ∧ c.id = (if env.adjust_geometry_ids then nci else v.native_id))
    ∧ nci' = (if env.adjust_geometry_ids then nci + 1 else nci)
    ∧ st'.surfaces = st.surfaces ∧ st'.surface_map = st.surface_map := by
  simp only [process_volume] at h
  split at h
  · cases h
  · split at h
    · cases h
    · split at h
      · cases h
      · rename_i c hvc
        simp only [Except.ok.injEq, Prod.mk.injEq] at h
        obtain ⟨hst, hnci, hg⟩ := h
        subst hst
        refine ⟨⟨c, rfl, ?_⟩, hnci.symm, rfl, rfl⟩
        exact (volume_cell_ok_fields env st _ _ v c hvc).1

/-- One successful surface iteration appends exactly one surface, whose id is
the renumbered or native candidate id, and leaves the cell collections alone. -/
theorem process_surface_ok (env : DagEnv) (st : SimState) (nsi : Int) (i : Nat) (g : Nat)
    (sf : SurfInfo) (st' : SimState) (nsi' : Int)
    (h : process_surface env st nsi i g sf = .ok (st', nsi')) :
    (∃ s, st'.surfaces = st.surfaces ++ [s] ∧ s.id = (if env.adjust_geometry_ids then nsi else sf.native_id))
    ∧ nsi' = (if env.adjust_geometry_ids then nsi + 1 else nsi)
    ∧ st'.cells = st.cells ∧ st'.cell_map = st.cell_map := by
  simp only [process_surface] at h
  split at h
  · cases h
  · split at h
    · cases h
    · simp only [Except.ok.injEq, Prod.mk.injEq] at h
      obtain ⟨hst, hnsi⟩ := h
      subst hst
      exact ⟨⟨_, rfl, rfl⟩, hnsi.symm, rfl, rfl⟩

/-- A successful run of the volume loop in renumber mode appends one cell per
volume, with consecutive ids from the starting counter, and does not touch
the surfaces. -/
theorem volumes_loop_ok (env : DagEnv) (hadj : env.adjust_geometry_ids = true) :
    ∀ (vols : List VolInfo) (st : SimState) (nci : Int) (i g : Nat)
      (st' : SimState) (nci' : Int) (g' : Nat),
      volumes_loop env st nci i g vols = .ok (st', nci', g') →
      ∃ L, st'.cells = st.cells ++ L ∧ L.length = vols.length ∧
        (∀ k, k < L.length → (L.get? k).map DAGCell.id = some (nci + (k : Int))) ∧
        st'.surfaces = st.surfaces ∧ nci' = nci + (vols.length : Int) := by
  intro vols
  induction vols with
  | nil =>
    intro st nci i g st' nci' g' h
    simp only [volumes_loop, Except.ok.injEq, Prod.mk.injEq] at h
    obtain ⟨h1, h2, h3⟩ := h
    subst h1; subst h2
    exact ⟨[], by simp, rfl, by simp, rfl, by simp⟩
  | cons v rest ih =>
    intro st nci i g st' nci' g' h
    simp only [volumes_loop] at h
    split at h
    · cases h
    · rename_i stm ncim gm hpv
      obtain ⟨⟨c, hcells, hcid⟩, hncim, hsurf, -⟩ :=
        process_volume_ok env st nci i v g stm ncim gm hpv
      rw [hadj, if_pos rfl] at hcid hncim
      obtain ⟨L', hc', hlen', hids', hs', hnf'⟩ := ih stm ncim (i + 1) gm st' nci' g' h
      refine ⟨c :: L', ?_, by simp [hlen'], ?_, by rw [hs', hsurf], ?_⟩
      · rw [hc', hcells, List.append_assoc, List.singleton_append]
      · intro k hk
        cases k with
        | zero => simp [hcid]
        | succ k' =>
          simp only [List.get?_cons_succ]
          have := hids' k' (by simpa using hk)
          rw [this, hncim]
          congr 1
          push_cast
          ring
      · rw [hnf', hncim]
        simp only [List.length_cons]
        push_cast
        ring

/-- A successful run of the surface loop in renumber mode appends one surface
per input, with consecutive ids from the starting counter. -/
theorem surfaces_loop_ok (env : DagEnv) (hadj : env.adjust_geometry_ids = true) :
    ∀ (surfs : List SurfInfo) (st : SimState) (nsi : Int) (i g : Nat)
      (st' : SimState) (nsi' : Int),
      surfaces_loop env st nsi i g surfs = .ok (st', nsi') →
      ∃ M, st'.surfaces = st.surfaces ++ M ∧ M.length = surfs.length ∧
        (∀ k, k < M.length → (M.get? k).map DAGSurface.id = some (nsi + (k : Int))) := by
  intro surfs
  induction surfs with
  | nil =>
    intro st nsi i g st' nsi' h
    simp only [surfaces_loop, Except.ok.injEq, Prod.mk.injEq] at h
    obtain ⟨h1, h2⟩ := h
    subst h1
    exact ⟨[], by simp, rfl, by simp⟩
  | cons s rest ih =>
    intro st nsi i g st' nsi' h
    simp only [surfaces_loop] at h
    split at h
    · cases h
    · rename_i stm nsim hps
      obtain ⟨⟨srec, hsurfs, hsid⟩, hnsim, -, -⟩ :=
        process_surface_ok env st nsi i g s stm nsim hps
      rw [hadj, if_pos rfl] at hsid hnsim
      obtain ⟨M', hm', hlen', hids'⟩ := ih stm nsim (i + 1) g st' nsi' h
      refine ⟨srec :: M', ?_, by simp [hlen'], ?_⟩
      · rw [hm', hsurfs, List.append_assoc, List.singleton_append]
      · intro k hk
        cases k with
        | zero => simp [hsid]
        | succ k' =>
          simp only [List.get?_cons_succ]
          have := hids' k' (by simpa using hk)
          rw [this, hnsim]
          congr 1
          push_cast
          ring

/-- The fold `x = 0; for v: if v > x then x = v` dominates every element and
returns its seed or an element. -/
theorem cpp_max_fold_aux :
    ∀ (l : List Int) (a : Int),
      a ≤ l.foldl (fun m x => if x > m then x else m) a
      ∧ (∀ x ∈ l, x ≤ l.foldl (fun m x => if x > m then x else m) a)
      ∧ (l.foldl (fun m x => if x > m then x else m) a = a
         ∨ ∃ x ∈ l, l.foldl (fun m x => if x > m then x else m) a = x) := by
  intro l
  induction l with
  | nil =>
    intro a
    exact ⟨le_refl a, by simp, Or.inl rfl⟩
  | cons x l ih =>
    intro a
    simp only [List.foldl_cons]
    obtain ⟨ih1, ih2, ih3⟩ := ih (if x > a then x else a)
    have ha : a ≤ (if x > a then x else a) := by split <;> omega
    have hx : x ≤ (if x > a then x else a) := by split <;> omega
    refine ⟨le_trans ha ih1, ?_, ?_⟩
    · intro y hy
      rcases List.mem_cons.mp hy with rfl | hy'
      · exact le_trans hx ih1
      · exact ih2 y hy'
    · rcases ih3 with h0 | ⟨y, hy, hyeq⟩
      · by_cases hxa : x > a
        · refine Or.inr ⟨x, List.mem_cons_self x l, ?_⟩
          rw [h0, if_pos hxa]
        · refine Or.inl ?_
          rw [h0, if_neg hxa]
      · exact Or.inr ⟨y, List.mem_cons.mpr (Or.inr hy), hyeq⟩

/-- On a nonempty list of positive integers the fold returns the maximum
element. -/
theorem cpp_max_fold_top (l : List Int) (hpos : ∀ x ∈ l, 0 < x) (hne : l ≠ []) :
    ∃ x ∈ l, cpp_max_fold l = x ∧ ∀ y ∈ l, y ≤ x := by
  obtain ⟨-, h2, h3⟩ := cpp_max_fold_aux l 0
  rcases h3 with h0 | ⟨x, hx, hxeq⟩
  · exfalso
    obtain ⟨z, hz⟩ := List.exists_mem_of_ne_nil l hne
    have hzf := h2 z hz
    have hzp := hpos z hz
    rw [h0] at hzf
    omega
  · exact ⟨x, hx, hxeq, fun y hy => hxeq ▸ h2 y hy⟩

/-- Unless the sorted id vector ends with a gap, the formatter loop started
anywhere inside the vector, with enough fuel, eventually reads one past the
end. -/
theorem rangeLoopOpt_none (idv : List Int) (hlg : lastGapB idv = false) :
    ∀ (fuel i : Nat) (s : Int) (acc : String), idv.length - i < fuel → i < idv.length →
      rangeLoopOpt idv fuel i s acc = none := by
  intro fuel
  induction fuel with
  | zero => intro i s acc hf _; omega
  | succ fuel ih =>
    intro i s acc hf hi
    simp only [rangeLoopOpt]
    rw [if_pos hi]
    cases hsi : idv.get? i with
    | none => simp
    | some stop =>
      simp only []
      cases hn : idv.get? (i + 1) with
      | none => simp
      | some nxt =>
        simp only []
        have hi1 : i + 1 < idv.length := by
          by_contra hc
          rw [List.get?_eq_none.mpr (by omega)] at hn
          exact Option.noConfusion hn
        by_cases hgt : nxt > stop + 1
        · rw [if_pos hgt]
          by_cases h2 : i + 2 < idv.length
          · exact ih (i + 2) nxt _ (by omega) h2
          · exfalso
            have e1 : idv.length - 2 = i := by omega
            have e2 : idv.length - 1 = i + 1 := by omega
            have hlg2 : lastGapB idv = true := by
              unfold lastGapB
              rw [e1, e2, hsi, hn]
              exact decide_eq_true hgt
            rw [hlg2] at hlg
            exact Bool.noConfusion hlg
        · rw [if_neg hgt]
          exact ih (i + 1) s acc (by omega) hi1

/-! The claim theorems. -/

/-- Claim C1 (code bug evaluation): the XML constructor, fed a node that sets
only `auto_mat_ids=true`, leaves `adjust_material_ids_` false and instead
flips `adjust_geometry_ids_` to true — dagmc.cpp:208 assigns the wrong
member; the second conjunct shows `auto_geom_ids=false` is likewise
overridden by the `auto_mat_ids` value. -/
theorem c1_auto_mat_ids_eval :
    dagUniverseFromXml ⟨some 1, some "dagmc.h5m", none, some true⟩ =
      .ok { id := 1, filename := "dagmc.h5m", adjust_geometry_ids := true, adjust_material_ids := false }
    ∧ dagUniverseFromXml ⟨some 1, some "dagmc.h5m", some false, some true⟩ =
      .ok { id := 1, filename := "dagmc.h5m", adjust_geometry_ids := true, adjust_material_ids := false } :=
  ⟨rfl, rfl⟩

/-- Claim C2 (code bug evaluation): on the id set 1,2,4 the range formatter —
in the total embedding where every vector access is in bounds, so the result
is exact — produces the string 1-2 followed by a comma and space, dropping
the final singleton block; re-parsing yields only 1,2, so the round-trip
property fails. -/
theorem c2_range_format_eval :
    dagmc_ids_for_dim_opt [1, 2, 4] = some "1-2, "
    ∧ reparseRanges "1-2, " = [1, 2]
    ∧ (4 : Int) ∉ reparseRanges "1-2, " := by
  exact ⟨by decide, by decide, by decide⟩

/-- Claim C9 (counterexample): on the non-empty id set 1,5 the formatter loop
terminates without ever reading one past the end of the id vector — the
Option-embedding returns an actual string (with the final id dropped), not
the out-of-bounds marker `none` — refuting the claim that the loop evaluates
`id_vec[i+1]` at `i = n-1` for every non-empty input. -/
theorem c9_counterexample : dagmc_ids_for_dim_opt [1, 5] = some "1, " := by
  decide

/-- Claim C9 (amended): whenever the sorted id vector does not end with a gap
between its last two entries — in particular for the empty input (which
reads `id_vec[0]`), every singleton, and every set whose two largest ids are
consecutive — the formatter performs an out-of-bounds read (`none` in the
Option embedding); and the oracle embedding shows the result is not
determined by the input set alone: on the set containing only 1 the output
is the empty string or the string 1 depending on the out-of-bounds value. -/
theorem c9_oob_amended :
    (∀ ids : List Int, lastGapB (sortIds ids) = false → dagmc_ids_for_dim_opt ids = none)
    ∧ dagmc_ids_for_dim_junk [1] (fun _ => 0) ≠ dagmc_ids_for_dim_junk [1] (fun _ => 10) := by
  constructor
  · intro ids hlg
    simp only [dagmc_ids_for_dim_opt]
    split
    · rfl
    · rename_i s hz
      have h0 : 0 < (sortIds ids).length := by
        by_contra hc
        rw [List.get?_eq_none.mpr (by omega)] at hz
        exact Option.noConfusion hz
      exact rangeLoopOpt_none (sortIds ids) hlg ((sortIds ids).length + 1) 0 s "" (by omega) h0
  · decide

/-- Witness for the amended C9: the singleton set containing 3 satisfies the
no-trailing-gap hypothesis and the formatter's Option embedding returns
`none` (the out-of-bounds read is reached). -/
theorem c9_oob_amended_wit :
    lastGapB (sortIds [3]) = false ∧ dagmc_ids_for_dim_opt [3] = none :=
  ⟨rfl, c9_oob_amended.1 [3] rfl⟩

/-- Claim C3: for a surface that bounds the tracked graveyard volume (nonzero
tracked handle among the surface's parent volumes), whenever the boundary tag
classifies non-fatally the resolved boundary condition is Vacuum, whatever
the tag classified to. -/
theorem c3_graveyard_forces_vacuum (tag : String) (sid : Int) (g : Nat) (pv : List Nat)
    (b : Option BCKind) (hc : classify_bc (asciiToLower tag) sid = .ok b)
    (hg : g ≠ 0) (hm : g ∈ pv) :
    resolve_bc tag sid g pv = .ok (some BCKind.vacuum) := by
  unfold resolve_bc
  rw [hc]
  simp only [Except.ok.injEq]
  rw [if_pos ⟨hg, hm⟩]

/-- Witness for C3: the tags reflective and the empty string both classify
non-fatally and are both forced to Vacuum on a graveyard-bounding surface. -/
theorem c3_graveyard_forces_vacuum_wit :
    resolve_bc "reflective" 7 3 [3] = .ok (some BCKind.vacuum)
    ∧ resolve_bc "" 7 3 [3] = .ok (some BCKind.vacuum) :=
  ⟨c3_graveyard_forces_vacuum "reflective" 7 3 [3] (some BCKind.reflective) rfl (by decide) (by decide),
   c3_graveyard_forces_vacuum "" 7 3 [3] none rfl (by decide) (by decide)⟩

/-- Claim C5: legacy material resolution — exactly one case-insensitive name
match assigns that material's id; two or more matches are the fatal ambiguity
error; with no match the tag is parsed by `std::stoi` and a successful parse
is used directly as the material id (no existence check), while a failed
parse is the fatal error naming the lowered tag and the cell. -/
theorem c5_legacy_material_resolution (tag : String) (c : DAGCell) (mats : List Material) :
    (∀ m : Material,
        mats.filter (fun m2 => asciiToLower tag == asciiToLower m2.name) = [m] →
        legacy_assign_material tag c mats = .ok { c with material := c.material ++ [m.id] })
    ∧ (2 ≤ (mats.filter (fun m2 => asciiToLower tag == asciiToLower m2.name)).length →
        legacy_assign_material tag c mats = .error (.ambiguousMaterial (asciiToLower tag)))
    ∧ (∀ k : Int,
        mats.filter (fun m2 => asciiToLower tag == asciiToLower m2.name) = [] →
        cppStoi (asciiToLower tag) = some k →
        legacy_assign_material tag c mats = .ok { c with material := c.material ++ [k] })
    ∧ (mats.filter (fun m2 => asciiToLower tag == asciiToLower m2.name) = [] →
        cppStoi (asciiToLower tag) = none →
        legacy_assign_material tag c mats = .error (.materialNotFound (asciiToLower tag) c.id)) := by
  refine ⟨?_, ?_, ?_, ?_⟩
  · intro m hm
    simp only [legacy_assign_material]
    rw [flt_single (asciiToLower tag) mats c m hm]
    simp
  · intro hm
    simp only [legacy_assign_material]
    rw [flt_multi (asciiToLower tag) mats c hm]
  · intro k hfil hstoi
    simp only [legacy_assign_material]
    rw [flt_nomatch (asciiToLower tag) mats c false hfil]
    simp [hstoi]
  · intro hfil hstoi
    simp only [legacy_assign_material]
    rw [flt_nomatch (asciiToLower tag) mats c false hfil]
    simp [hstoi]

/-- Witness for C5: all four branches at concrete inputs — a unique
case-differing name match assigns id 7, two case-differing same-name
materials are ambiguous, the unmatched numeric-prefix tag 12abc assigns 12
directly, and the unmatched tag xyz is the fatal unresolved-tag error. -/
theorem c5_legacy_material_resolution_wit :
    legacy_assign_material "steel" cellFresh5 [⟨7, "Steel", 400⟩] = .ok { cellFresh5 with material := [7] }
    ∧ legacy_assign_material "steel" cellFresh5 [⟨7, "Steel", 400⟩, ⟨8, "STEEL", 0⟩] =
        .error (.ambiguousMaterial "steel")
    ∧ legacy_assign_material "12abc" cellFresh5 [] = .ok { cellFresh5 with material := [12] }
    ∧ legacy_assign_material "xyz" cellFresh5 [] = .error (.materialNotFound "xyz" 5) :=
  ⟨(c5_legacy_material_resolution "steel" cellFresh5 [⟨7, "Steel", 400⟩]).1 ⟨7, "Steel", 400⟩ (by decide),
   (c5_legacy_material_resolution "steel" cellFresh5 [⟨7, "Steel", 400⟩, ⟨8, "STEEL", 0⟩]).2.1 (by decide),
   (c5_legacy_material_resolution "12abc" cellFresh5 []).2.2.1 12 rfl (by decide),
   (c5_legacy_material_resolution "xyz" cellFresh5 []).2.2.2 rfl (by decide)⟩

/-- Claim C10: the integer-parse fallback of legacy assignment uses
`std::stoi` prefix semantics — the tag 12abc with no name match is assigned
material id 12; in general, with no name match the assignment succeeds with
the parsed leading integer exactly when one exists and is the fatal
unresolved-tag error exactly when the tag has no leading integer. -/
theorem c10_stoi_leading_digits :
    (∀ c : DAGCell, legacy_assign_material "12abc" c [] = .ok { c with material := c.material ++ [12] })
    ∧ (∀ (tag : String) (c : DAGCell) (mats : List Material) (k : Int),
        mats.filter (fun m2 => asciiToLower tag == asciiToLower m2.name) = [] →
        cppStoi (asciiToLower tag) = some k →
        legacy_assign_material tag c mats = .ok { c with material := c.material ++ [k] })
    ∧ (∀ (tag : String) (c : DAGCell) (mats : List Material),
        mats.filter (fun m2 => asciiToLower tag == asciiToLower m2.name) = [] →
        cppStoi (asciiToLower tag) = none →
        legacy_assign_material tag c mats = .error (.materialNotFound (asciiToLower tag) c.id)) := by
  refine ⟨fun c => rfl, ?_, ?_⟩
  · intro tag c mats k hfil hstoi
    simp only [legacy_assign_material]
    rw [flt_nomatch (asciiToLower tag) mats c false hfil]
    simp [hstoi]
  · intro tag c mats hfil hstoi
    simp only [legacy_assign_material]
    rw [flt_nomatch (asciiToLower tag) mats c false hfil]
    simp [hstoi]

/-- Witness for C10: the concrete tag 12abc yields material id 12, and the
digit-free tag try is the fatal error. -/
theorem c10_stoi_leading_digits_wit :
    legacy_assign_material "12abc" cellFresh5 [] = .ok { cellFresh5 with material := [12] }
    ∧ legacy_assign_material "try" cellFresh5 [] = .error (.materialNotFound "try" 5) :=
  ⟨c10_stoi_leading_digits.1 cellFresh5,
   c10_stoi_leading_digits.2.2 "try" cellFresh5 [] rfl (by decide)⟩

/-- Claim C4: when the candidate cell id (renumbered or native) is already in
the cell-id registry, the volume iteration is exactly the fatal collision
error — `fatal_error` terminates the process, and in this embedding the
error result carries no successor state, so no registry entry is inserted or
changed; likewise for the surface registry (for a surface the boundary tag is
classified first, so the hypothesis asks that classification to succeed). -/
theorem c4_id_collision_fatal :
    (∀ (env : DagEnv) (st : SimState) (nci : Int) (i : Nat) (v : VolInfo) (g : Nat),
        (st.cell_map.lookup (if env.adjust_geometry_ids then nci else v.native_id)).isSome = true →
        process_volume env st nci i v g =
          .error (.cellCollision (if env.adjust_geometry_ids then nci else v.native_id) env.universe_id))
    ∧ (∀ (env : DagEnv) (st : SimState) (nsi : Int) (i g : Nat) (sf : SurfInfo) (b : Option BCKind),
        resolve_bc sf.boundary_prop (if env.adjust_geometry_ids then nsi else sf.native_id) g sf.parent_vols = .ok b →
        (st.surface_map.lookup (if env.adjust_geometry_ids then nsi else sf.native_id)).isSome = true →
        process_surface env st nsi i g sf =
          .error (.surfCollision (if env.adjust_geometry_ids then nsi else sf.native_id) env.universe_id)) := by
  constructor
  · intro env st nci i v g h
    obtain ⟨j, hj⟩ := Option.isSome_iff_exists.mp h
    simp only [process_volume, hj]
  · intro env st nsi i g sf b hres h
    obtain ⟨j, hj⟩ := Option.isSome_iff_exists.mp h
    simp only [process_surface, hres, hj]

/-- Witness for C4: a volume whose native id 5 is already registered fails
with the cell collision error, and a surface whose native id 7 is already
registered fails with the surface collision error. -/
theorem c4_id_collision_fatal_wit :
    process_volume envLegacy stCell5 1 0 vol5 0 = .error (.cellCollision 5 1)
    ∧ process_surface envLegacy stSurf7 1 0 0 surf7 = .error (.surfCollision 7 1) :=
  ⟨c4_id_collision_fatal.1 envLegacy stCell5 1 0 vol5 0 rfl,
   c4_id_collision_fatal.2 envLegacy stSurf7 1 0 0 surf7 none rfl rfl⟩

/-- Claim C6 (counterexample): the tag `-1` is not one of the reserved void
tags, yet the cell built for it — the tag parses via `std::stoi` to the VOID
sentinel value — has an empty temperature list, not the single entry the
claim promises for every volume with a non-reserved tag. -/
theorem c6_counterexample :
    isVoidTag "-1" = false
    ∧ volume_cell envLegacy emptyState cellFresh5 "-1" volMinus1 = .ok cellVoidOut
    ∧ cellVoidOut.material.headD 0 = MATERIAL_VOID
    ∧ cellVoidOut.sqrtkT.length ≠ 1 := by
  exact ⟨rfl, rfl, rfl, by decide⟩

/-- Claim C6 (amended): a reserved void tag yields material list exactly the
VOID sentinel and an empty temperature list; any other tag yields a material
list of length at least 1 (in fact 1), with an empty temperature list when
the first material entry is the VOID sentinel (reachable through a numeric
tag parsing to the sentinel) and exactly one temperature entry otherwise. -/
theorem c6_material_temperature_amended (env : DagEnv) (st : SimState) (v : VolInfo)
    (c0 : DAGCell) (mat_str : String) (c : DAGCell)
    (h0m : c0.material = []) (h0t : c0.sqrtkT = [])
    (hok : volume_cell env st c0 mat_str v = .ok c) :
    (isVoidTag mat_str = true → c.material = [MATERIAL_VOID] ∧ c.sqrtkT = [])
    ∧ (isVoidTag mat_str = false →
        1 ≤ c.material.length
        ∧ (c.material.headD 0 = MATERIAL_VOID → c.sqrtkT = [])
        ∧ (c.material.headD 0 ≠ MATERIAL_VOID → c.sqrtkT.length = 1)) := by
  unfold volume_cell at hok
  split at hok
  · cases hok
  · rename_i c1 hres
    obtain ⟨x, hx, hxv⟩ := resolve_material_ok_shape env st c0 mat_str v c1 hres
    have hc1mat : c1.material = [x] := by rw [hx, h0m]; rfl
    have hc1sq : c1.sqrtkT = [] := by rw [hx]; exact h0t
    have hc1hd : c1.material.headD 0 = x := by rw [hc1mat]; rfl
    split at hok
    · rename_i hvoid
      simp only [Except.ok.injEq] at hok
      subst hok
      rw [hc1hd] at hvoid
      constructor
      · intro hv
        refine ⟨?_, hc1sq⟩
        rw [hc1mat, hxv hv]
      · intro hnv
        refine ⟨by rw [hc1mat]; exact Nat.le_refl 1, fun _ => hc1sq, fun hne => ?_⟩
        rw [hc1hd] at hne
        exact absurd hvoid hne
    · rename_i hnvoid
      obtain ⟨q, hq⟩ := assign_sqrtkT_ok_shape env st c1 v c hok
      have hcm : c.material = [x] := by rw [hq]; exact hc1mat
      have hcs : c.sqrtkT = [q] := by rw [hq, hc1sq]; rfl
      rw [hc1hd] at hnvoid
      constructor
      · intro hv
        exact absurd (hxv hv) hnvoid
      · intro hnv
        refine ⟨by rw [hcm]; exact Nat.le_refl 1, fun hvd => ?_, fun _ => by rw [hcs]; rfl⟩
        rw [hcm] at hvd
        exact absurd hvd hnvoid

/-- Witness for the amended C6: the reserved tag void yields the sentinel
material and no temperature, and the steel-tagged volume yields exactly one
temperature entry. -/
theorem c6_material_temperature_amended_wit :
    cellVoidOut.material = [MATERIAL_VOID] ∧ cellVoidOut.sqrtkT = []
    ∧ cellSteelOut.sqrtkT.length = 1 := by
  have h1 := (c6_material_temperature_amended envLegacy emptyState volMinus1 cellFresh5 "void"
    cellVoidOut rfl rfl rfl).1 rfl
  have h2 := (c6_material_temperature_amended envTemp stSteel volSteelTemp cellFresh5 "steel"
    cellSteelOut rfl rfl rfl).2 rfl
  exact ⟨h1.1, h1.2, h2.2.2 (by decide)⟩

/-- Claim C7: in renumber mode a successful import assigns cell ids
sequentially in mesh-enumeration order starting at the volume counter one
above the highest pre-existing (positive) cell id — so with no pre-existing
cells the ids are 1, 2, 3, … — and surface ids likewise from one above the
highest pre-existing surface id. -/
theorem c7_renumber_sequential (env : DagEnv) (st : SimState) (vols : List VolInfo)
    (surfs : List SurfInfo) (st1 st2 : SimState) (nciF nsiF : Int) (gF : Nat)
    (hadj : env.adjust_geometry_ids = true)
    (hc : volumes_loop env st (next_cell_id st) 0 0 vols = .ok (st1, nciF, gF))
    (hs : surfaces_loop env st1 (next_surf_id st) 0 gF surfs = .ok (st2, nsiF)) :
    (∃ L, st1.cells = st.cells ++ L ∧ L.length = vols.length ∧
       ∀ k, k < L.length → (L.get? k).map DAGCell.id = some (next_cell_id st + (k : Int)))
    ∧ (st.cells = [] → ∀ k, k < st1.cells.length →
        (st1.cells.get? k).map DAGCell.id = some (1 + (k : Int)))
    ∧ ((∀ c ∈ st.cells, 0 < c.id) → st.cells ≠ [] →
        ∃ cmax ∈ st.cells, next_cell_id st = cmax.id + 1 ∧ ∀ c ∈ st.cells, c.id ≤ cmax.id)
    ∧ (∃ M, st2.surfaces = st.surfaces ++ M ∧ M.length = surfs.length ∧
        ∀ k, k < M.length → (M.get? k).map DAGSurface.id = some (next_surf_id st + (k : Int)))
    ∧ ((∀ s ∈ st.surfaces, 0 < s.id) → st.surfaces ≠ [] →
        ∃ smax ∈ st.surfaces, next_surf_id st = smax.id + 1 ∧ ∀ s ∈ st.surfaces, s.id ≤ smax.id) := by
  obtain ⟨L, hL, hLlen, hLids, hsurfpres, -⟩ :=
    volumes_loop_ok env hadj vols st (next_cell_id st) 0 0 st1 nciF gF hc
  obtain ⟨M, hM, hMlen, hMids⟩ :=
    surfaces_loop_ok env hadj surfs st1 (next_surf_id st) 0 gF st2 nsiF hs
  refine ⟨⟨L, hL, hLlen, hLids⟩, ?_, ?_, ⟨M, by rw [hM, hsurfpres], hMlen, hMids⟩, ?_⟩
  · intro hemp k hk
    have hnext1 : next_cell_id st = 1 := by
      unfold next_cell_id
      rw [hemp]
      rfl
    have hcells : st1.cells = L := by rw [hL, hemp]; exact List.nil_append L
    rw [hcells] at hk ⊢
    have := hLids k hk
    rw [hnext1] at this
    exact this
  · intro hpos hne
    obtain ⟨x, hxmem, hxeq, hxmax⟩ := cpp_max_fold_top (st.cells.map DAGCell.id)
      (by
        intro y hy
        obtain ⟨cm, hcm, hfy⟩ := List.mem_map.mp hy
        rw [← hfy]
        exact hpos cm hcm)
      (fun hmap => hne (List.map_eq_nil_iff.mp hmap))
    obtain ⟨cmax, hcmem, hcx⟩ := List.mem_map.mp hxmem
    refine ⟨cmax, hcmem, ?_, ?_⟩
    · unfold next_cell_id
      rw [hxeq, hcx]
    · intro cc hcc
      have := hxmax (DAGCell.id cc) (List.mem_map.mpr ⟨cc, hcc, rfl⟩)
      rw [← hcx] at this
      exact this
  · intro hpos hne
    obtain ⟨x, hxmem, hxeq, hxmax⟩ := cpp_max_fold_top (st.surfaces.map DAGSurface.id)
      (by
        intro y hy
        obtain ⟨sm, hsm, hfy⟩ := List.mem_map.mp hy
        rw [← hfy]
        exact hpos sm hsm)
      (fun hmap => hne (List.map_eq_nil_iff.mp hmap))
    obtain ⟨smax, hsmem, hsx⟩ := List.mem_map.mp hxmem
    refine ⟨smax, hsmem, ?_, ?_⟩
    · unfold next_surf_id
      rw [hxeq, hsx]
    · intro ss hss
      have := hxmax (DAGSurface.id ss) (List.mem_map.mpr ⟨ss, hss, rfl⟩)
      rw [← hsx] at this
      exact this

/-- Witness for C7: a renumbering run over an empty model with two volumes
and one surface — the second cell gets id 2 and the surface gets id 1. -/
theorem c7_renumber_sequential_wit :
    (stAfterVols.cells.get? 1).map DAGCell.id = some 2
    ∧ (stAfterSurfs.surfaces.get? 0).map DAGSurface.id = some 1 := by
  have h := c7_renumber_sequential envRenumber emptyState volsVoid surfsPlain
    stAfterVols stAfterSurfs 3 2 0 rfl rfl rfl
  constructor
  · have hb := h.2.1 rfl 1 (by decide)
    have e : (1 : Int) + ((1 : Nat) : Int) = 2 := by norm_num
    rw [e] at hb
    exact hb
  · obtain ⟨M, hM, hMlen, hMids⟩ := h.2.2.2.1
    have hM' : stAfterSurfs.surfaces = M := by
      rw [show emptyState.surfaces = ([] : List DAGSurface) from rfl, List.nil_append] at hM
      exact hM
    have hi := hMids 0 (by rw [hMlen]; decide)
    rw [← hM'] at hi
    have e : next_surf_id emptyState + ((0 : Nat) : Int) = 1 := by
      rw [show next_surf_id emptyState = 1 from rfl]
      norm_num
    rw [e] at hi
    exact hi

/-- Claim C8: for a cell whose resolved material is not the VOID sentinel,
the stored temperature list is exactly one entry of the form
`sqrtf (kB * T)`, where `T` is the parsed explicit `temp` property when the
mesh entity carries one, and otherwise the resolved material's default
temperature when positive, else the simulation-wide default. -/
theorem c8_sqrtkT_priority (env : DagEnv) (st : SimState) (c0 : DAGCell) (mat_str : String)
    (v : VolInfo) (c : DAGCell)
    (hok : volume_cell env st c0 mat_str v = .ok c)
    (hnv : c.material.headD 0 ≠ MATERIAL_VOID)
    (h0t : c0.sqrtkT = []) :
    (∀ ts, v.temp_prop = some ts →
        ∃ t, env.stod ts = some t ∧ c.sqrtkT = [env.sqrtf (env.kB * t)])
    ∧ (v.temp_prop = none →
        ∃ mat, lookup_material st (c.material.headD 0) = some mat ∧
          c.sqrtkT = [env.sqrtf (env.kB *
            (if mat.temperature > 0 then mat.temperature else env.temperature_default))]) := by
  unfold volume_cell at hok
  split at hok
  · cases hok
  · rename_i c1 hres
    obtain ⟨x, hx, -⟩ := resolve_material_ok_shape env st c0 mat_str v c1 hres
    have hc1sq : c1.sqrtkT = [] := by rw [hx]; exact h0t
    split at hok
    · rename_i hvoid
      simp only [Except.ok.injEq] at hok
      subst hok
      exact absurd hvoid hnv
    · rename_i hnvoid
      unfold assign_sqrtkT at hok
      split at hok
      · cases hok
      · rename_i mat hlm
        split at hok
        · rename_i ts0 htp
          split at hok
          · rename_i t0 hst
            simp only [Except.ok.injEq] at hok
            subst hok
            constructor
            · intro ts hts
              rw [htp] at hts
              have hts' : ts0 = ts := by injection hts
              subst hts'
              exact ⟨t0, hst, by simp [hc1sq]⟩
            · intro hnone
              rw [htp] at hnone
              exact Option.noConfusion hnone
          · cases hok
        · rename_i htp
          split at hok
          · rename_i hpos
            simp only [Except.ok.injEq] at hok
            subst hok
            constructor
            · intro ts hts
              rw [htp] at hts
              exact Option.noConfusion hts
            · intro _
              refine ⟨mat, hlm, ?_⟩
              simp [hc1sq, hpos]
          · rename_i hpos
            simp only [Except.ok.injEq] at hok
            subst hok
            constructor
            · intro ts hts
              rw [htp] at hts
              exact Option.noConfusion hts
            · intro _
              refine ⟨mat, hlm, ?_⟩
              simp [hc1sq, hpos]

/-- Witness for C8: the steel-tagged volume with explicit temperature
property, under an environment whose `stod` yields 300, `kB` is 2 and
`sqrtf` is the identity, stores exactly `2 * 300 = 600`. -/
theorem c8_sqrtkT_priority_wit :
    volume_cell envTemp stSteel cellFresh5 "steel" volSteelTemp = .ok cellSteelOut
    ∧ cellSteelOut.sqrtkT = [(600 : Rat)] := by
  refine ⟨rfl, ?_⟩
  have h := (c8_sqrtkT_priority envTemp stSteel cellFresh5 "steel" volSteelTemp cellSteelOut
    rfl (by decide) rfl).1 "300" rfl
  obtain ⟨t, ht, hsq⟩ := h
  have ht' : (300 : Rat) = t := Option.some.inj ht
  rw [hsq, ← ht']
  rfl

end OpenMCDag
